import Mathlib

/-!
Verification model of the message-parsing layer of the repository
(`src/server/gmail.py` and `src/server/utils.py`).

Python strings are modelled as `List Char`, Python byte strings as
`List Nat` (one entry per byte, each below 256).  Fallible Python code
(raising exceptions) is modelled with `Except String` / `Option`.
Python's `int()` applied to digit slices is modelled as accepting
decimal digits only (the repository's data never exercises the
whitespace/sign fringe of `int()`).
-/

namespace GmailModel

/-- Whitespace test modelling Python's regex class `\s` and `str.strip()`,
restricted to the ASCII whitespace characters (the additional Unicode
whitespace characters never occur in the repository's data). -/
def isPySpace (c : Char) : Bool :=
  c = ' ' || c = '\t' || c = '\n' || c = '\r' || c = '\x0b' || c = '\x0c'

/-- Value of an ASCII decimal digit character. -/
def digitVal (c : Char) : Option Nat :=
  if '0' ≤ c ∧ c ≤ '9' then some (c.toNat - 48) else none

/-- Digit character for a value below ten. -/
def digitChar (n : Nat) : Char := Char.ofNat (48 + n)

/-- Zero-padded two-digit rendering (`%02d` for values below 100). -/
def pad2 (n : Nat) : List Char := [digitChar (n / 10), digitChar (n % 10)]

/-- Zero-padded four-digit rendering (`%04d` for values below 10000). -/
def pad4 (n : Nat) : List Char :=
  [digitChar (n / 1000), digitChar (n / 100 % 10), digitChar (n / 10 % 10),
   digitChar (n % 10)]

/-- A Python `datetime` value: proleptic-Gregorian date, time of day, and
an optional fixed UTC offset in seconds (`none` models a naive datetime).
Microseconds are not tracked: every datetime the repository builds has
microsecond zero. -/
structure PyDateTime where
  year : Nat
  month : Nat
  day : Nat
  hour : Nat
  minute : Nat
  second : Nat
  tz : Option Int
deriving DecidableEq, Repr

def isLeapYear (y : Nat) : Bool :=
  (y % 4 = 0 && y % 100 ≠ 0) || y % 400 = 0

def daysInMonth (y m : Nat) : Nat :=
  if m = 2 then (if isLeapYear y then 29 else 28)
  else if m = 4 ∨ m = 6 ∨ m = 9 ∨ m = 11 then 30
  else 31

/-- Validity of a `timezone` offset: strictly within one day, as the
`timezone` constructor enforces. -/
def tzOffsetValid : Option Int → Bool
  | none => true
  | some off => decide (-86400 < off) && decide (off < 86400)

/-- Range checks performed by the `datetime` constructor (`MINYEAR = 1`,
`MAXYEAR = 9999`; seconds above 59 are rejected). -/
def mkPyDateTime (y m d h mi s : Nat) (tz : Option Int) : Option PyDateTime :=
  if 1 ≤ y ∧ y ≤ 9999 ∧ 1 ≤ m ∧ m ≤ 12 ∧ 1 ≤ d ∧ d ≤ daysInMonth y m ∧
     h ≤ 23 ∧ mi ≤ 59 ∧ s ≤ 59 ∧ tzOffsetValid tz = true then
    some ⟨y, m, d, h, mi, s, tz⟩
  else none

/-- Day count of a civil date (standard civil-calendar conversion; day 0
is 1970-01-01). -/
def daysFromCivil (y m d : Nat) : Int :=
  let yy : Int := (y : Int) - (if m ≤ 2 then 1 else 0)
  let era : Int := (if 0 ≤ yy then yy else yy - 399) / 400
  let yoe : Int := yy - era * 400
  let mp : Int := ((m : Int) + 9) % 12
  let doy : Int := (153 * mp + 2) / 5 + (d : Int) - 1
  let doe : Int := yoe * 365 + yoe / 4 - yoe / 100 + doy
  era * 146097 + doe - 719468

/-- Civil date of a day count (inverse of `daysFromCivil`). -/
def civilFromDays (z0 : Int) : Nat × Nat × Nat :=
  let z := z0 + 719468
  let era : Int := (if 0 ≤ z then z else z - 146096) / 146097
  let doe : Int := z - era * 146097
  let yoe : Int := (doe - doe / 1460 + doe / 36524 - doe / 146096) / 365
  let y : Int := yoe + era * 400
  let doy : Int := doe - (365 * yoe + yoe / 4 - yoe / 100)
  let mp : Int := (5 * doy + 2) / 153
  let d : Int := doy - (153 * mp + 2) / 5 + 1
  let m : Int := mp + (if mp < 10 then 3 else -9)
  ((y + (if m ≤ 2 then 1 else 0)).toNat, m.toNat, d.toNat)

/-- Subtraction of `timedelta(days = n)` from a naive datetime: the date
moves back, the time of day is unchanged. -/
def subDays (dt : PyDateTime) (n : Nat) : PyDateTime :=
  let c := civilFromDays (daysFromCivil dt.year dt.month dt.day - n)
  { dt with year := c.1, month := c.2.1, day := c.2.2 }

/-- Rendering of `datetime.isoformat()` for a datetime with microsecond
zero: `YYYY-MM-DDTHH:MM:SS` plus, for an aware datetime, the offset as
`±HH:MM` (with `:SS` appended only when the offset has a seconds part). -/
def isoformat (dt : PyDateTime) : List Char :=
  pad4 dt.year ++ '-' :: pad2 dt.month ++ '-' :: pad2 dt.day ++
  'T' :: pad2 dt.hour ++ ':' :: pad2 dt.minute ++ ':' :: pad2 dt.second ++
  (match dt.tz with
   | none => []
   | some off =>
     let a := off.natAbs
     (if off < 0 then '-' else '+') ::
       (pad2 (a / 3600) ++ ':' :: pad2 (a % 3600 / 60) ++
        (if a % 60 = 0 then [] else ':' :: pad2 (a % 60))))

/-- Rendering of `strftime('%Y-%m-%d %H:%M:%S')`. -/
def strftimeReadable (dt : PyDateTime) : List Char :=
  pad4 dt.year ++ '-' :: pad2 dt.month ++ '-' :: pad2 dt.day ++
  ' ' :: pad2 dt.hour ++ ':' :: pad2 dt.minute ++ ':' :: pad2 dt.second

/-! ### Model of `datetime.fromisoformat`

The grammar accepted by CPython's `datetime.fromisoformat` (the strict
pre-3.11 grammar, the inverse of `isoformat`): characters 0-9 are the
date `YYYY-MM-DD`, character 10 — when present — is the separator and may
be ANY single character, characters from 11 on are the time
`HH[:MM[:SS[.fff[fff]]]]` with an optional offset `±HH:MM[:SS[.ffffff]]`
introduced by the first `-` or `+` of the time part. -/

/-- Date part of `fromisoformat`: exactly `YYYY-MM-DD`, all-digit fields. -/
def parseIsoDate : List Char → Option (Nat × Nat × Nat)
  | [y1, y2, y3, y4, '-', m1, m2, '-', d1, d2] => do
    let a ← digitVal y1
    let b ← digitVal y2
    let c ← digitVal y3
    let d ← digitVal y4
    let e ← digitVal m1
    let f ← digitVal m2
    let g ← digitVal d1
    let h ← digitVal d2
    some (a * 1000 + b * 100 + c * 10 + d, e * 10 + f, g * 10 + h)
  | _ => none

/-- Two mandatory digit characters. -/
def parse2dStrict : List Char → Option (Nat × List Char)
  | c1 :: c2 :: rest => do
    let a ← digitVal c1
    let b ← digitVal c2
    some (a * 10 + b, rest)
  | _ => none

/-- A fraction tail of exactly three or six digits. -/
def isFracDigits (l : List Char) : Bool :=
  (l.length = 3 || l.length = 6) && l.all fun c => (digitVal c).isSome

/-- Time components `HH[:MM[:SS[.fff[fff]]]]` of `fromisoformat`
(two-digit fields, `:` separators; the fractional value, affecting only
the microsecond field, is validated but not tracked). -/
def parseHMS (l : List Char) : Option (Nat × Nat × Nat) := do
  let (h, r1) ← parse2dStrict l
  match r1 with
  | [] => some (h, 0, 0)
  | ':' :: r2 => do
    let (mi, r3) ← parse2dStrict r2
    match r3 with
    | [] => some (h, mi, 0)
    | ':' :: r4 => do
      let (s, r5) ← parse2dStrict r4
      match r5 with
      | [] => some (h, mi, s)
      | '.' :: fr => if isFracDigits fr then some (h, mi, s) else none
      | _ => none
    | _ => none
  | _ => none

/-- Time string of `fromisoformat`, including the optional UTC offset: the
split point is the first `-` of the string, else its first `+`; the
offset substring must have length 5, 8 or 15 and parse as time
components; the resulting offset must be acceptable to `timezone`. -/
def parseIsoTime (l : List Char) : Option (Nat × Nat × Nat × Option Int) :=
  if l.length < 2 then none
  else
    match (match l.findIdx? (· = '-') with
           | some i => some i
           | none => l.findIdx? (· = '+')) with
    | none => do
      let (h, mi, s) ← parseHMS l
      some (h, mi, s, none)
    | some i => do
      let (h, mi, s) ← parseHMS (l.take i)
      let tzstr := l.drop (i + 1)
      if tzstr.length = 5 ∨ tzstr.length = 8 ∨ tzstr.length = 15 then do
        let (th, tm, ts) ← parseHMS tzstr
        let offAbs : Int := (th * 3600 + tm * 60 + ts : Nat)
        let off : Int := if (l.findIdx? (· = '-')).isSome then -offAbs else offAbs
        if tzOffsetValid (some off) = true then some (h, mi, s, some off) else none
      else none

/-- Model of `datetime.fromisoformat`. -/
def fromisoformat (l : List Char) : Option PyDateTime := do
  let (y, m, d) ← parseIsoDate (l.take 10)
  if l.length = 10 then
    mkPyDateTime y m d 0 0 0 none
  else do
    let (h, mi, s, tz) ← parseIsoTime (l.drop 11)
    mkPyDateTime y m d h mi s tz

/-- Python `str.replace('Z', '+00:00')`. -/
def replaceZ : List Char → List Char
  | [] => []
  | c :: rest =>
    if c = 'Z' then '+' :: '0' :: '0' :: ':' :: '0' :: '0' :: replaceZ rest
    else c :: replaceZ rest

/-- Model of `GMailData.validate_date_format`: the date string must be
accepted by `fromisoformat` after replacing every `Z` by `+00:00`. -/
def validate_date_format (v : List Char) : Bool :=
  (fromisoformat (replaceZ v)).isSome

/-! ### Model of `datetime.strptime`

Python's `_strptime` compiles each directive to a regex fragment:
`%Y` is four digits; `%m`, `%d`, `%H`, `%M`, `%S` are one- or two-digit
alternations (two digits tried first, exactly as the regex alternation
orders them — in all the repository's formats every numeric directive is
followed by a non-digit literal, whitespace or the end, so the local
choice below is equivalent to full regex backtracking); a space in the
format matches a run of whitespace; matching must consume the entire
string ("unconverted data remains" otherwise); finally the `datetime`
constructor enforces calendar validity. -/

/-- One- or two-digit numeric directive: `ok2` is the set of values the
two-digit regex alternatives accept, `ok1` the one-digit set. -/
def parse2or1 (ok2 ok1 : Nat → Bool) : List Char → Option (Nat × List Char)
  | [] => none
  | c1 :: rest1 =>
    match digitVal c1 with
    | none => none
    | some a =>
      match rest1 with
      | c2 :: rest2 =>
        match digitVal c2 with
        | some b =>
          if ok2 (a * 10 + b) then some (a * 10 + b, rest2)
          else if ok1 a then some (a, rest1) else none
        | none => if ok1 a then some (a, rest1) else none
      | [] => if ok1 a then some (a, []) else none

/-- `%m`: regex `1[0-2]|0[1-9]|[1-9]`. -/
def okMonth2 (v : Nat) : Bool := decide (1 ≤ v ∧ v ≤ 12)

/-- `%d`: regex `3[01]|[12]\d|0[1-9]|[1-9]`. -/
def okDay2 (v : Nat) : Bool := decide (1 ≤ v ∧ v ≤ 31)

/-- One-digit alternative `[1-9]` of `%m` and `%d`. -/
def ok1to9 (v : Nat) : Bool := decide (1 ≤ v ∧ v ≤ 9)

/-- Four mandatory digits (`%Y`). -/
def parse4d : List Char → Option (Nat × List Char)
  | c1 :: c2 :: c3 :: c4 :: rest => do
    let a ← digitVal c1
    let b ← digitVal c2
    let c ← digitVal c3
    let d ← digitVal c4
    some (a * 1000 + b * 100 + c * 10 + d, rest)
  | _ => none

/-- A literal character of the format. -/
def parseLit (ch : Char) : List Char → Option (List Char)
  | c :: rest => if c = ch then some rest else none
  | [] => none

/-- A space in the format: one or more whitespace characters. -/
def parseWs : List Char → Option (List Char)
  | c :: rest =>
    if isPySpace c then some (rest.dropWhile fun c => isPySpace c) else none
  | [] => none

/-- The `%H:%M:%S` tail shared by several formats (`%H` up to 23 with two
digits, `%M` up to 59, `%S` up to 61 — leap seconds match the regex but
are rejected later by the `datetime` constructor). -/
def parseHMStok (l : List Char) : Option (Nat × Nat × Nat × List Char) := do
  let (h, r1) ← parse2or1 (fun v => decide (v ≤ 23)) (fun v => decide (v ≤ 9)) l
  let r2 ← parseLit ':' r1
  let (mi, r3) ← parse2or1 (fun v => decide (v ≤ 59)) (fun v => decide (v ≤ 9)) r2
  let r4 ← parseLit ':' r3
  let (s, r5) ← parse2or1 (fun v => decide (v ≤ 61)) (fun v => decide (v ≤ 9)) r4
  some (h, mi, s, r5)

/-- `strptime` with format `%Y-%m-%d`. -/
def strptimeYmd (l : List Char) : Option PyDateTime := do
  let (y, r1) ← parse4d l
  let r2 ← parseLit '-' r1
  let (m, r3) ← parse2or1 okMonth2 ok1to9 r2
  let r4 ← parseLit '-' r3
  let (d, r5) ← parse2or1 okDay2 ok1to9 r4
  if r5 = [] then mkPyDateTime y m d 0 0 0 none else none

/-- `strptime` with format `%m/%d/%Y`. -/
def strptimeMdY (l : List Char) : Option PyDateTime := do
  let (m, r1) ← parse2or1 okMonth2 ok1to9 l
  let r2 ← parseLit '/' r1
  let (d, r3) ← parse2or1 okDay2 ok1to9 r2
  let r4 ← parseLit '/' r3
  let (y, r5) ← parse4d r4
  if r5 = [] then mkPyDateTime y m d 0 0 0 none else none

/-- `strptime` with format `%d/%m/%Y`. -/
def strptimeDmY (l : List Char) : Option PyDateTime := do
  let (d, r1) ← parse2or1 okDay2 ok1to9 l
  let r2 ← parseLit '/' r1
  let (m, r3) ← parse2or1 okMonth2 ok1to9 r2
  let r4 ← parseLit '/' r3
  let (y, r5) ← parse4d r4
  if r5 = [] then mkPyDateTime y m d 0 0 0 none else none

/-- `strptime` with format `%Y-%m-%d %H:%M:%S`. -/
def strptimeYmdHMS (l : List Char) : Option PyDateTime := do
  let (y, r1) ← parse4d l
  let r2 ← parseLit '-' r1
  let (m, r3) ← parse2or1 okMonth2 ok1to9 r2
  let r4 ← parseLit '-' r3
  let (d, r5) ← parse2or1 okDay2 ok1to9 r4
  let r6 ← parseWs r5
  let (h, mi, s, r7) ← parseHMStok r6
  if r7 = [] then mkPyDateTime y m d h mi s none else none

/-- `strptime` with format `%m/%d/%Y %H:%M:%S`. -/
def strptimeMdYHMS (l : List Char) : Option PyDateTime := do
  let (m, r1) ← parse2or1 okMonth2 ok1to9 l
  let r2 ← parseLit '/' r1
  let (d, r3) ← parse2or1 okDay2 ok1to9 r2
  let r4 ← parseLit '/' r3
  let (y, r5) ← parse4d r4
  let r6 ← parseWs r5
  let (h, mi, s, r7) ← parseHMStok r6
  if r7 = [] then mkPyDateTime y m d h mi s none else none

/-- Model of `GMailDataExtended.validate_readable_date`: `strptime` with
format `%Y-%m-%d %H:%M:%S` must succeed. -/
def validate_readable_date (v : List Char) : Bool :=
  (strptimeYmdHMS v).isSome

/-- Lowercased abbreviated weekday names of `%a` (the regex matches
case-insensitively). -/
def weekdayAbbrs : List (List Char) :=
  ["mon", "tue", "wed", "thu", "fri", "sat", "sun"].map String.data

/-- Lowercased abbreviated month names of `%b`. -/
def monthAbbrs : List (List Char) :=
  ["jan", "feb", "mar", "apr", "may", "jun", "jul", "aug", "sep", "oct",
   "nov", "dec"].map String.data

/-- `%a`: a three-character weekday abbreviation, case-insensitively. -/
def parseWeekdayAbbr : List Char → Option (List Char)
  | c1 :: c2 :: c3 :: rest =>
    if weekdayAbbrs.contains ([c1, c2, c3].map Char.toLower) then some rest
    else none
  | _ => none

/-- `%b`: a three-character month abbreviation, case-insensitively,
yielding the month number. -/
def parseMonthAbbr : List Char → Option (Nat × List Char)
  | c1 :: c2 :: c3 :: rest =>
    match monthAbbrs.findIdx? (· = [c1, c2, c3].map Char.toLower) with
    | some i => some (i + 1, rest)
    | none => none
  | _ => none

/-- `%z`: regex `[+-]\d\d:?\d\d(:?\d\d(\.\d{1,6})?)?|Z` (the `Z`
alternative is case-sensitive; the fractional-seconds tail, never present
in the repository's data, is not modelled).  The resulting offset must be
acceptable to the `timezone` constructor. -/
def parseZtok : List Char → Option (Int × List Char)
  | [] => none
  | c :: rest =>
    if c = 'Z' then some (0, rest)
    else if c = '+' ∨ c = '-' then
      match parse2dStrict rest with
      | none => none
      | some (hh, r1) =>
        match parse2dStrict (match r1 with | ':' :: t => t | _ => r1) with
        | none => none
        | some (mm, r2) =>
          let sr : Nat × List Char :=
            match r2 with
            | ':' :: t =>
              match parse2dStrict t with
              | some (s, r) => (s, r)
              | none => (0, r2)
            | _ =>
              match parse2dStrict r2 with
              | some (s, r) => (s, r)
              | none => (0, r2)
          let offAbs : Int := (hh * 3600 + mm * 60 + sr.1 : Nat)
          let off : Int := if c = '-' then -offAbs else offAbs
          if tzOffsetValid (some off) = true then some (off, sr.2) else none
    else none

/-- `strptime` with the Gmail `Date`-header format
`%a, %d %b %Y %H:%M:%S %z`. -/
def strptime2822 (l : List Char) : Option PyDateTime := do
  let r1 ← parseWeekdayAbbr l
  let r2 ← parseLit ',' r1
  let r3 ← parseWs r2
  let (d, r4) ← parse2or1 okDay2 ok1to9 r3
  let r5 ← parseWs r4
  let (m, r6) ← parseMonthAbbr r5
  let r7 ← parseWs r6
  let (y, r8) ← parse4d r7
  let r9 ← parseWs r8
  let (h, mi, s, r10) ← parseHMStok r9
  let r11 ← parseWs r10
  let (off, r12) ← parseZtok r11
  if r12 = [] then mkPyDateTime y m d h mi s (some off) else none

/-- Model of `utils.ensure_datetime`: the five keywords map to the current
time minus a fixed day offset; any other string is tried against the five
formats in order; no match raises. -/
def tryFormats (l : List Char) : Option PyDateTime :=
  (strptimeYmd l) <|> (strptimeMdY l) <|> (strptimeDmY l) <|>
    (strptimeYmdHMS l) <|> (strptimeMdYHMS l)

def ensure_datetime (now : PyDateTime) (s : String) : Except String PyDateTime :=
  if s = "today" then .ok now
  else if s = "yesterday" then .ok (subDays now 1)
  else if s = "last_week" then .ok (subDays now 7)
  else if s = "last_month" then .ok (subDays now 30)
  else if s = "last_year" then .ok (subDays now 365)
  else
    match tryFormats s.data with
    | some dt => .ok dt
    | none => .error "Unable to parse date"

/-! ### Model of `base64.urlsafe_b64decode` and permissive UTF-8 decoding -/

/-- Base64 value of a character after the urlsafe translation
(`-` to `+`, `_` to `/`). -/
def b64val (c : Char) : Option Nat :=
  if 'A' ≤ c ∧ c ≤ 'Z' then some (c.toNat - 65)
  else if 'a' ≤ c ∧ c ≤ 'z' then some (c.toNat - 71)
  else if '0' ≤ c ∧ c ≤ '9' then some (c.toNat + 4)
  else if c = '+' ∨ c = '-' then some 62
  else if c = '/' ∨ c = '_' then some 63
  else none

/-- Loop of `binascii.a2b_base64` in non-strict mode.  State: position in
the current quadruple, pending bits, count of pending padding characters,
accumulated output (reversed).  Characters outside the alphabet are
skipped; enough padding at quad position two or three ends decoding
successfully; input exhausted mid-quadruple is an error ("Incorrect
padding", or the data-character-count error at position one). -/
def a2bLoop : List Char → Nat → Nat → Nat → List Nat → Except String (List Nat)
  | [], 0, _, _, acc => .ok acc.reverse
  | [], 1, _, _, _ =>
    .error "Invalid base64-encoded string: number of data characters cannot be 1 more than a multiple of 4"
  | [], _, _, _, _ => .error "Incorrect padding"
  | c :: rest, qp, left, pads, acc =>
    if c = '=' then
      if 2 ≤ qp then
        if 4 ≤ qp + (pads + 1) then .ok acc.reverse
        else a2bLoop rest qp left (pads + 1) acc
      else a2bLoop rest qp left pads acc
    else
      match b64val c with
      | none => a2bLoop rest qp left pads acc
      | some v =>
        match qp with
        | 0 => a2bLoop rest 1 v 0 acc
        | 1 => a2bLoop rest 2 (v % 16) 0 ((left * 4 + v / 16) :: acc)
        | 2 => a2bLoop rest 3 (v % 4) 0 ((left * 16 + v / 4) :: acc)
        | _ => a2bLoop rest 0 0 0 ((left * 64 + v) :: acc)

/-- Model of `base64.urlsafe_b64decode` on a `str` argument: the argument
is first encoded as ASCII (non-ASCII characters raise), then decoded by
the non-strict `binascii` loop. -/
def urlsafe_b64decode (s : List Char) : Except String (List Nat) :=
  if s.all (fun c => c.toNat < 128) then a2bLoop s 0 0 0 []
  else .error "string argument should contain only ASCII characters"

/-- A UTF-8 continuation byte. -/
def isCont (b : Nat) : Bool := 0x80 ≤ b && b ≤ 0xBF

/-- Admissible second byte of a three-byte sequence (surrogates and
overlong encodings excluded). -/
def cont3ok (b b2 : Nat) : Bool :=
  if b = 0xE0 then 0xA0 ≤ b2 && b2 ≤ 0xBF
  else if b = 0xED then 0x80 ≤ b2 && b2 ≤ 0x9F
  else isCont b2

/-- Admissible second byte of a four-byte sequence. -/
def cont4ok (b b2 : Nat) : Bool :=
  if b = 0xF0 then 0x90 ≤ b2 && b2 ≤ 0xBF
  else if b = 0xF4 then 0x80 ≤ b2 && b2 ≤ 0x8F
  else isCont b2

/-- One decoding step at a lead byte `b` with following bytes `rest`:
the decoded character (`none` when the sequence at `b` is ill-formed and
is dropped) and the bytes remaining after the consumed portion (the
maximal valid prefix of a bad sequence is skipped, as CPython does). -/
def utf8Step (b : Nat) (rest : List Nat) : Option Char × List Nat :=
  if b < 0x80 then (some (Char.ofNat b), rest)
  else if 0xC2 ≤ b ∧ b ≤ 0xDF then
    match rest with
    | [] => (none, [])
    | b2 :: rest2 =>
      if isCont b2 then (some (Char.ofNat ((b - 0xC0) * 64 + (b2 - 0x80))), rest2)
      else (none, rest)
  else if 0xE0 ≤ b ∧ b ≤ 0xEF then
    match rest with
    | [] => (none, [])
    | b2 :: rest2 =>
      if cont3ok b b2 then
        match rest2 with
        | [] => (none, [])
        | b3 :: rest3 =>
          if isCont b3 then
            (some (Char.ofNat ((b - 0xE0) * 4096 + (b2 - 0x80) * 64 + (b3 - 0x80))),
             rest3)
          else (none, rest2)
      else (none, rest)
  else if 0xF0 ≤ b ∧ b ≤ 0xF4 then
    match rest with
    | [] => (none, [])
    | b2 :: rest2 =>
      if cont4ok b b2 then
        match rest2 with
        | [] => (none, [])
        | b3 :: rest3 =>
          if isCont b3 then
            match rest3 with
            | [] => (none, [])
            | b4 :: rest4 =>
              if isCont b4 then
                (some (Char.ofNat ((b - 0xF0) * 262144 + (b2 - 0x80) * 4096 +
                   (b3 - 0x80) * 64 + (b4 - 0x80))), rest4)
              else (none, rest3)
          else (none, rest2)
      else (none, rest)
  else (none, rest)

theorem utf8Step_length (b : Nat) (rest : List Nat) :
    (utf8Step b rest).2.length ≤ rest.length := by
  unfold utf8Step
  repeat' split
  all_goals simp_all
  all_goals omega

/-- Scanning loop of UTF-8 decoding, structurally recursive on a fuel
argument; every step consumes at least one byte, so fuel equal to the
byte count never runs out. -/
def utf8DecodeIgnoreAux : Nat → List Nat → List Char
  | 0, _ => []
  | _ + 1, [] => []
  | fuel + 1, b :: rest =>
    match (utf8Step b rest).1 with
    | some c => c :: utf8DecodeIgnoreAux fuel (utf8Step b rest).2
    | none => utf8DecodeIgnoreAux fuel (utf8Step b rest).2

/-- Model of `bytes.decode('utf-8', errors='ignore')`: well-formed
sequences decode, ill-formed sequences are dropped, decoding never
fails. -/
def utf8DecodeIgnore (l : List Nat) : List Char :=
  utf8DecodeIgnoreAux l.length l

/-- Decoding applied to a MIME part body in `_extract_email_body`:
urlsafe base64, then UTF-8 with errors ignored. -/
def decodeBody (data : List Char) : Except String (List Char) := do
  let bs ← urlsafe_b64decode data
  pure (utf8DecodeIgnore bs)

/-! ### Model of the MIME payload tree and `_extract_email_body` -/

/-- One node of the MIME payload tree: the declared content type
(`part.get('mimeType')`), the body data
(`part.get('body', {}).get('data', '')`, empty when absent), and the list
of sub-parts.  A dict without a `parts` key behaves exactly like one with
an empty list (the loop body never runs either way), so a single list
field models both. -/
inductive Part where
  | mk (mimeType : Option String) (data : String) (parts : List Part)

mutual
/-- Recursive helper `get_body_from_part` of `_extract_email_body`:
search the sub-parts first and return the first non-empty result; then
try the node's own data when its declared type is `text/plain`, then when
it is `text/html`; a decode error propagates as an exception. -/
def get_body_from_part : Part → Except String (List Char)
  | .mk mt data parts => do
    let fromSub ← get_body_from_parts parts
    if fromSub ≠ [] then pure fromSub
    else if mt = some "text/plain" ∧ data ≠ "" then decodeBody data.data
    else if mt = some "text/html" ∧ data ≠ "" then decodeBody data.data
    else pure []

/-- The `for subpart in part['parts']` loop: first non-empty result wins. -/
def get_body_from_parts : List Part → Except String (List Char)
  | [] => pure []
  | p :: rest => do
    let b ← get_body_from_part p
    if b ≠ [] then pure b else get_body_from_parts rest
end

/-- Model of `_extract_email_body`: apply the recursive search to the
message payload. -/
def extract_email_body (payload : Part) : Except String (List Char) :=
  get_body_from_part payload

/-! ### Model of `_clean_html` -/

/-- Scanning loop of tag stripping, structurally recursive on a fuel
argument; every step consumes at least one character, so fuel equal to
the character count never runs out. -/
def stripTagsAux : Nat → List Char → List Char
  | 0, l => l
  | _ + 1, [] => []
  | fuel + 1, c :: rest =>
    if c = '<' then
      let inside := rest.takeWhile (· ≠ '>')
      if inside ≠ [] ∧ (rest.drop inside.length).head? = some '>' then
        stripTagsAux fuel (rest.drop (inside.length + 1))
      else '<' :: stripTagsAux fuel rest
    else c :: stripTagsAux fuel rest

/-- Leftmost-scan model of `re.sub(r'<[^>]+>', '', s)`: at each `<`, a
match needs at least one non-`>` character followed by `>`; matched text
is dropped, everything else is kept. -/
def stripTags (l : List Char) : List Char :=
  stripTagsAux l.length l

/-- Index of the last newline of a list, if any. -/
def lastNlIdx? (l : List Char) : Option Nat :=
  (l.reverse.findIdx? (· = '\n')).map fun i => l.length - 1 - i

/-- Scanning loop of blank-line collapsing, structurally recursive on a
fuel argument; every step consumes at least one character. -/
def collapseBlankAux : Nat → List Char → List Char
  | 0, l => l
  | _ + 1, [] => []
  | fuel + 1, c :: rest =>
    if c = '\n' then
      match lastNlIdx? (rest.takeWhile fun c => isPySpace c) with
      | some k => '\n' :: '\n' :: collapseBlankAux fuel (rest.drop (k + 1))
      | none => '\n' :: collapseBlankAux fuel rest
    else c :: collapseBlankAux fuel rest

/-- Leftmost-scan model of `re.sub(r'\n\s*\n', '\n\n', s)`: at each
newline, the greedy `\s*` runs to the last newline of the maximal
whitespace run that follows; a match is replaced by exactly two newlines
and scanning resumes after it. -/
def collapseBlank (l : List Char) : List Char :=
  collapseBlankAux l.length l

/-- Scanning loop of space collapsing, structurally recursive on a fuel
argument; every step consumes at least one character. -/
def collapseSpacesAux : Nat → List Char → List Char
  | 0, l => l
  | _ + 1, [] => []
  | fuel + 1, c :: rest =>
    if c = ' ' then ' ' :: collapseSpacesAux fuel (rest.dropWhile (· = ' '))
    else c :: collapseSpacesAux fuel rest

/-- Model of `re.sub(r' +', ' ', s)`. -/
def collapseSpaces (l : List Char) : List Char :=
  collapseSpacesAux l.length l

/-- Python `str.strip()`. -/
def pyStrip (l : List Char) : List Char :=
  ((l.dropWhile fun c => isPySpace c).reverse.dropWhile fun c => isPySpace c).reverse

/-- Model of `_clean_html`: empty input short-circuits; otherwise strip
tags, collapse blank-line runs, collapse space runs, strip the ends. -/
def clean_html (s : List Char) : List Char :=
  if s = [] then []
  else pyStrip (collapseSpaces (collapseBlank (stripTags s)))

/-! ### Models of the records, `_parse_email_data` and the retrieval loop -/

/-- Header mapping built by the dict comprehension in `_parse_email_data`:
iterate the (name, value) pairs in order, later values overwriting
earlier ones; the result is queried by name. -/
def build_headers (hs : List (String × String)) : String → Option String :=
  hs.foldl (fun acc p => fun k => if k = p.1 then some p.2 else acc k)
    (fun _ => none)

/-- The `GMailData` record (basic mode): exactly six fields. -/
structure GMailData where
  id : String
  thread_id : Option String
  from_ : String
  subject : String
  date : String
  snippet : String
deriving DecidableEq, Repr

/-- Construction of a `GMailData` record: pydantic runs the date
validator; keys the model does not declare (such as a body passed in
basic mode) are ignored. -/
def GMailData.construct (id : String) (thread_id : Option String)
    (from_ subject date snippet : String) : Except String GMailData :=
  if validate_date_format date.data then
    .ok ⟨id, thread_id, from_, subject, date, snippet⟩
  else .error "Date must be in ISO format"

/-- The `GMailDataExtended` record (extended mode). -/
structure GMailDataExtended where
  id : String
  thread_id : Option String
  from_ : String
  to_ : String
  subject : String
  date : String
  date_readable : String
  labels : List String
  snippet : String
  size_estimate : Int
  body : Option String
deriving DecidableEq, Repr

/-- Construction of a `GMailDataExtended` record: the inherited date
validator, the readable-date validator, and the `ge = 0` bound on the
size estimate (the validators are modelled as run in sequence). -/
def GMailDataExtended.construct (id : String) (thread_id : Option String)
    (from_ to_ subject date date_readable : String) (labels : List String)
    (snippet : String) (size_estimate : Int) (body : Option String) :
    Except String GMailDataExtended :=
  if ¬ validate_date_format date.data then .error "Date must be in ISO format"
  else if ¬ validate_readable_date date_readable.data then
    .error "Readable date must be in YYYY-MM-DD HH:MM:SS"
  else if size_estimate < 0 then .error "size_estimate must be non-negative"
  else .ok ⟨id, thread_id, from_, to_, subject, date, date_readable, labels,
    snippet, size_estimate, body⟩

/-- Either shape of parsed record. -/
inductive ParsedEmail where
  | basic (r : GMailData)
  | extended (r : GMailDataExtended)
deriving DecidableEq, Repr

/-- The fetched details of one message, as `_parse_email_data` reads them
(absent keys are modelled by their defaults; in the raw dict the header
list sits under the payload). -/
structure MessageDetails where
  threadId : Option String
  headers : List (String × String)
  snippet : String
  labelIds : List String
  sizeEstimate : Int
  payload : Part

/-- Python `date_str.split(' (')[0] if ' (' in date_str else date_str`:
the prefix before the first occurrence of `" ("`. -/
def stripParen : List Char → List Char
  | [] => []
  | ' ' :: '(' :: _ => []
  | c :: rest => c :: stripParen rest

/-- Model of `_parse_email_data`: the service round-trip is outside the
model, so the fetched details and the current wall-clock time are
parameters.  The `Date` header (empty default) has a trailing
parenthesised part stripped and is parsed with the RFC-2822-like format;
any failure falls back to the current time.  When a body is requested it
is extracted (a decode exception propagates) and cleaned; in basic mode
the resulting dict entry is ignored by `GMailData`. -/
def parse_email_data (basic_data include_body : Bool) (now : PyDateTime)
    (msgId : String) (d : MessageDetails) : Except String ParsedEmail :=
  let headers := build_headers d.headers
  let date_str := (headers "Date").getD ""
  let parsed_date :=
    match strptime2822 (stripParen date_str.data) with
    | some dt => dt
    | none => now
  let bodyRes : Except String (Option String) :=
    if include_body then
      match extract_email_body d.payload with
      | .ok body =>
        .ok (some (String.mk (if body ≠ [] then clean_html body else [])))
      | .error e => .error e
    else .ok none
  match bodyRes with
  | .error e => .error e
  | .ok body? =>
    if basic_data then
      match GMailData.construct msgId d.threadId ((headers "From").getD "Unknown")
          ((headers "Subject").getD "No Subject")
          (String.mk (isoformat parsed_date)) d.snippet with
      | .ok r => .ok (.basic r)
      | .error e => .error e
    else
      match GMailDataExtended.construct msgId d.threadId
          ((headers "From").getD "Unknown") ((headers "To").getD "Unknown")
          ((headers "Subject").getD "No Subject")
          (String.mk (isoformat parsed_date))
          (String.mk (strftimeReadable parsed_date))
          d.labelIds d.snippet d.sizeEstimate body? with
      | .ok r => .ok (.extended r)
      | .error e => .error e

/-- Model of the per-message loop of `get_emails_by_date_range`,
parameterised by the per-message fetch-and-parse step (representing
`_parse_email_data` together with its service call): an empty match set
returns immediately; otherwise each message is parsed, failures are
caught and counted, successes are appended in order.  The pair returned
is the list of parsed records and the count of parsing errors (the
latter is only logged by the code). -/
def get_emails_by_date_range {α β : Type} (parse : α → Except String β)
    (msgs : List α) : List β × Nat :=
  if msgs.isEmpty then ([], 0)
  else
    msgs.foldl
      (fun acc m =>
        match parse m with
        | .ok e => (acc.1 ++ [e], acc.2)
        | .error _ => (acc.1, acc.2 + 1))
      ([], 0)

/-! ### Specification-side definitions

The two definitions below follow the WORDS of the specification (not the
code); they exist only to compare the spec's reading with the code's
behaviour. -/

/-- Specification-side reading of "matching exactly the fixed format
YYYY-MM-DD HH:MM:SS": nineteen characters, digits in the numeric
positions, the literal separators in between. -/
def specFixedShape (l : List Char) : Bool :=
  match l with
  | [y1, y2, y3, y4, '-', m1, m2, '-', d1, d2, ' ',
     h1, h2, ':', n1, n2, ':', s1, s2] =>
    [y1, y2, y3, y4, m1, m2, d1, d2, h1, h2, n1, n2, s1, s2].all
      fun c => (digitVal c).isSome
  | _ => false

/-- Zone designator of the specification-side ISO-8601 reading:
`Z`, `±HH`, `±HH:MM` or `±HHMM`. -/
def specIsoZone (l : List Char) : Bool :=
  match l with
  | ['Z'] => true
  | s :: h1 :: h2 :: rest =>
    (s = '+' || s = '-') && (digitVal h1).isSome && (digitVal h2).isSome &&
    (match rest with
     | [] => true
     | [m1, m2] => (digitVal m1).isSome && (digitVal m2).isSome
     | [':', m1, m2] => (digitVal m1).isSome && (digitVal m2).isSome
     | _ => false)
  | _ => false

/-- Time-of-day part of the specification-side ISO-8601 reading:
`HH:MM`, optionally `:SS`, optionally a decimal fraction, optionally a
zone designator. -/
def specIsoTime (l : List Char) : Bool :=
  match l with
  | h1 :: h2 :: ':' :: m1 :: m2 :: rest =>
    (digitVal h1).isSome && (digitVal h2).isSome && (digitVal m1).isSome &&
    (digitVal m2).isSome &&
    (match rest with
     | [] => true
     | ':' :: s1 :: s2 :: rest2 =>
       (digitVal s1).isSome && (digitVal s2).isSome &&
       (match rest2 with
        | [] => true
        | '.' :: fr =>
          let ds := fr.takeWhile fun c => (digitVal c).isSome
          ds ≠ [] && specIsoZone (fr.drop ds.length) || (ds ≠ [] && fr.drop ds.length = [])
        | z => specIsoZone z)
     | z => specIsoZone z)
  | _ => false

/-- Specification-side reading of a valid ISO-8601 date-time string
(extended calendar format, the reading relevant to the claims):
`YYYY-MM-DD`, optionally followed by a `T` separator (or the space
variant used "by mutual agreement") and a time of day with optional
fraction and zone.  Any other separator character is NOT ISO-8601. -/
def specISO8601 (l : List Char) : Bool :=
  match l with
  | y1 :: y2 :: y3 :: y4 :: '-' :: m1 :: m2 :: '-' :: d1 :: d2 :: rest =>
    ([y1, y2, y3, y4, m1, m2, d1, d2].all fun c => (digitVal c).isSome) &&
    (match (digitVal m1, digitVal m2, digitVal d1, digitVal d2) with
     | (some a, some b, some c, some d) =>
       1 ≤ a * 10 + b && a * 10 + b ≤ 12 && 1 ≤ c * 10 + d && c * 10 + d ≤ 31
     | _ => false) &&
    (match rest with
     | [] => true
     | sep :: t => (sep = 'T' || sep = ' ') && specIsoTime t)
  | _ => false

end GmailModel

deriving instance DecidableEq for Except

namespace GmailModel

/-- Validity of a naive datetime: the field ranges the `datetime`
constructor guarantees, with no offset — the shape of `datetime.now()`. -/
def validNaive (dt : PyDateTime) : Prop :=
  1 ≤ dt.year ∧ dt.year ≤ 9999 ∧ 1 ≤ dt.month ∧ dt.month ≤ 12 ∧
  1 ≤ dt.day ∧ dt.day ≤ daysInMonth dt.year dt.month ∧ dt.hour ≤ 23 ∧
  dt.minute ≤ 59 ∧ dt.second ≤ 59 ∧ dt.tz = none

instance (dt : PyDateTime) : Decidable (validNaive dt) := by
  unfold validNaive; infer_instance

/-- Two adjacent spaces occur somewhere in the list (the property the
space-collapsing pass of `_clean_html` eliminates). -/
def hasDoubleSpace : List Char → Bool
  | a :: b :: rest => (a = ' ' && b = ' ') || hasDoubleSpace (b :: rest)
  | _ => false

/-! ### Helper lemmas -/

theorem digitVal_digitChar (k : Nat) (h : k < 10) :
    digitVal (digitChar k) = some k := by
  interval_cases k <;> decide

theorem digitChar_ne (k : Nat) (h : k < 10) :
    digitChar k ≠ 'Z' ∧ digitChar k ≠ '-' ∧ digitChar k ≠ '+' ∧
    digitChar k ≠ ':' ∧ digitChar k ≠ 'T' ∧ digitChar k ≠ ' ' := by
  interval_cases k <;> decide

theorem replaceZ_append (l1 l2 : List Char) :
    replaceZ (l1 ++ l2) = replaceZ l1 ++ replaceZ l2 := by
  induction l1 with
  | nil => rfl
  | cons c rest ih => by_cases h : c = 'Z' <;> simp [replaceZ, h, ih]

theorem replaceZ_of_not_mem (l : List Char) (h : 'Z' ∉ l) :
    replaceZ l = l := by
  induction l with
  | nil => rfl
  | cons c rest ih =>
    simp only [List.mem_cons, not_or] at h
    have hc : ¬ c = 'Z' := fun hc => h.1 hc.symm
    simp [replaceZ, hc, ih h.2]

theorem parse2dStrict_pad2 (m : Nat) (h : m < 100) (r : List Char) :
    parse2dStrict (pad2 m ++ r) = some (m, r) := by
  have h1 : m / 10 < 10 := by omega
  have h2 : m % 10 < 10 := by omega
  simp only [pad2, List.cons_append, List.nil_append, parse2dStrict,
    digitVal_digitChar _ h1, digitVal_digitChar _ h2, Option.bind_eq_bind,
    Option.some_bind]
  congr 1
  congr 1
  omega

theorem daysInMonth_le (y m : Nat) : daysInMonth y m ≤ 31 := by
  unfold daysInMonth
  split_ifs <;> omega

theorem parseIsoDate_render (y m d : Nat) (hy : y ≤ 9999) (hm : m < 100)
    (hd : d < 100) :
    parseIsoDate (pad4 y ++ '-' :: (pad2 m ++ '-' :: pad2 d)) = some (y, m, d) := by
  have h1 : y / 1000 < 10 := by omega
  have h2 : y / 100 % 10 < 10 := by omega
  have h3 : y / 10 % 10 < 10 := by omega
  have h4 : y % 10 < 10 := by omega
  have h5 : m / 10 < 10 := by omega
  have h6 : m % 10 < 10 := by omega
  have h7 : d / 10 < 10 := by omega
  have h8 : d % 10 < 10 := by omega
  simp only [pad4, pad2, List.cons_append, List.nil_append, parseIsoDate,
    digitVal_digitChar _ h1, digitVal_digitChar _ h2, digitVal_digitChar _ h3,
    digitVal_digitChar _ h4, digitVal_digitChar _ h5, digitVal_digitChar _ h6,
    digitVal_digitChar _ h7, digitVal_digitChar _ h8, Option.bind_eq_bind,
    Option.some_bind, Option.some.injEq, Prod.mk.injEq]
  refine ⟨by omega, by omega, by omega⟩

theorem parseHMS_render (h mi s : Nat) (hh : h < 100) (hm : mi < 100)
    (hs : s < 100) :
    parseHMS (pad2 h ++ ':' :: (pad2 mi ++ ':' :: pad2 s)) = some (h, mi, s) := by
  have e3 : parse2dStrict (pad2 s) = some (s, []) := by
    have := parse2dStrict_pad2 s hs []
    simpa using this
  simp only [parseHMS, parse2dStrict_pad2 h hh, Option.bind_eq_bind,
    Option.some_bind, parse2dStrict_pad2 mi hm, e3]

theorem no_sign_in_hms (h mi s : Nat) (hh : h < 100) (hm : mi < 100)
    (hs : s < 100) (c : Char)
    (hc : c ∈ pad2 h ++ ':' :: (pad2 mi ++ ':' :: pad2 s)) :
    c ≠ '-' ∧ c ≠ '+' := by
  simp only [pad2, List.cons_append, List.nil_append, List.mem_cons,
    List.not_mem_nil, or_false] at hc
  rcases hc with h' | h' | h' | h' | h' | h' | h' | h' <;> subst h'
  · exact ⟨(digitChar_ne _ (by omega)).2.1, (digitChar_ne _ (by omega)).2.2.1⟩
  · exact ⟨(digitChar_ne _ (by omega)).2.1, (digitChar_ne _ (by omega)).2.2.1⟩
  · decide
  · exact ⟨(digitChar_ne _ (by omega)).2.1, (digitChar_ne _ (by omega)).2.2.1⟩
  · exact ⟨(digitChar_ne _ (by omega)).2.1, (digitChar_ne _ (by omega)).2.2.1⟩
  · decide
  · exact ⟨(digitChar_ne _ (by omega)).2.1, (digitChar_ne _ (by omega)).2.2.1⟩
  · exact ⟨(digitChar_ne _ (by omega)).2.1, (digitChar_ne _ (by omega)).2.2.1⟩

theorem parseIsoTime_render (h mi s : Nat) (hh : h < 100) (hm : mi < 100)
    (hs : s < 100) :
    parseIsoTime (pad2 h ++ ':' :: (pad2 mi ++ ':' :: pad2 s))
      = some (h, mi, s, none) := by
  have hlen : (pad2 h ++ ':' :: (pad2 mi ++ ':' :: pad2 s)).length = 8 := by
    simp [pad2]
  have hminus : (pad2 h ++ ':' :: (pad2 mi ++ ':' :: pad2 s)).findIdx?
      (· = '-') = none := by
    refine List.findIdx?_eq_none_iff.mpr fun c hc => ?_
    simpa using (no_sign_in_hms h mi s hh hm hs c hc).1
  have hplus : (pad2 h ++ ':' :: (pad2 mi ++ ':' :: pad2 s)).findIdx?
      (· = '+') = none := by
    refine List.findIdx?_eq_none_iff.mpr fun c hc => ?_
    simpa using (no_sign_in_hms h mi s hh hm hs c hc).2
  simp only [parseIsoTime, hlen, hminus, hplus, parseHMS_render h mi s hh hm hs,
    Option.bind_eq_bind, Option.some_bind]
  norm_num

theorem isoformat_shape (dt : PyDateTime) (htz : dt.tz = none) :
    isoformat dt =
      (pad4 dt.year ++ '-' :: (pad2 dt.month ++ '-' :: pad2 dt.day)) ++
      'T' :: (pad2 dt.hour ++ ':' :: (pad2 dt.minute ++ ':' :: pad2 dt.second)) := by
  simp [isoformat, htz, List.append_assoc]

theorem fromisoformat_isoformat (dt : PyDateTime) (h : validNaive dt) :
    fromisoformat (isoformat dt) = some dt := by
  obtain ⟨h1, h2, h3, h4, h5, h6, h7, h8, h9, h10⟩ := h
  have hd31 : dt.day ≤ 31 := le_trans h6 (daysInMonth_le _ _)
  have hA : (pad4 dt.year ++ '-' :: (pad2 dt.month ++ '-' :: pad2 dt.day)).length
      = 10 := by simp [pad4, pad2]
  have hA11 : ((pad4 dt.year ++ '-' :: (pad2 dt.month ++ '-' :: pad2 dt.day))
      ++ ['T']).length = 11 := by simp [pad4, pad2]
  rw [isoformat_shape dt h10]
  have htake : ((pad4 dt.year ++ '-' :: (pad2 dt.month ++ '-' :: pad2 dt.day)) ++
      'T' :: (pad2 dt.hour ++ ':' :: (pad2 dt.minute ++ ':' :: pad2 dt.second))).take 10
      = pad4 dt.year ++ '-' :: (pad2 dt.month ++ '-' :: pad2 dt.day) :=
    List.take_left' hA
  have hdrop : (((pad4 dt.year ++ '-' :: (pad2 dt.month ++ '-' :: pad2 dt.day)) ++ ['T']) ++
      (pad2 dt.hour ++ ':' :: (pad2 dt.minute ++ ':' :: pad2 dt.second))).drop 11
      = pad2 dt.hour ++ ':' :: (pad2 dt.minute ++ ':' :: pad2 dt.second) :=
    List.drop_left' hA11
  have hassoc : (pad4 dt.year ++ '-' :: (pad2 dt.month ++ '-' :: pad2 dt.day)) ++
      'T' :: (pad2 dt.hour ++ ':' :: (pad2 dt.minute ++ ':' :: pad2 dt.second)) =
      ((pad4 dt.year ++ '-' :: (pad2 dt.month ++ '-' :: pad2 dt.day)) ++ ['T']) ++
      (pad2 dt.hour ++ ':' :: (pad2 dt.minute ++ ':' :: pad2 dt.second)) := by
    simp [List.append_assoc]
  have hlen : ((pad4 dt.year ++ '-' :: (pad2 dt.month ++ '-' :: pad2 dt.day)) ++
      'T' :: (pad2 dt.hour ++ ':' :: (pad2 dt.minute ++ ':' :: pad2 dt.second))).length
      = 19 := by simp [pad4, pad2]
  rw [fromisoformat]
  rw [htake, hlen,
    parseIsoDate_render dt.year dt.month dt.day h2 (by omega) (by omega)]
  simp only [Option.bind_eq_bind, Option.some_bind]
  rw [if_neg (by omega)]
  rw [hassoc, hdrop, parseIsoTime_render dt.hour dt.minute dt.second
    (by omega) (by omega) (by omega)]
  simp only [Option.some_bind]
  unfold mkPyDateTime
  rw [if_pos]
  · cases dt
    simp_all
  · refine ⟨h1, h2, h3, h4, h5, h6, h7, h8, h9, rfl⟩

theorem isoformat_no_Z (dt : PyDateTime) (h : validNaive dt) :
    'Z' ∉ isoformat dt := by
  obtain ⟨h1, h2, h3, h4, h5, h6, h7, h8, h9, h10⟩ := h
  have hd31 : dt.day ≤ 31 := le_trans h6 (daysInMonth_le _ _)
  intro hmem
  rw [isoformat_shape dt h10] at hmem
  simp only [pad4, pad2, List.cons_append, List.nil_append, List.mem_cons,
    List.mem_append, List.not_mem_nil, or_false] at hmem
  have hz : ∀ k, k < 10 → 'Z' = digitChar k → False := fun k hk he =>
    absurd he.symm ((digitChar_ne k hk).1)
  rcases hmem with h' | h' | h' | h' | h' | h' | h' | h' | h' | h' | h' | h' |
    h' | h' | h' | h' | h' | h' | h' <;>
    first
      | exact hz _ (by omega) h'
      | exact absurd h' (by decide)

theorem validate_isoformat (dt : PyDateTime) (h : validNaive dt) :
    validate_date_format (isoformat dt) = true := by
  unfold validate_date_format
  rw [replaceZ_of_not_mem _ (isoformat_no_Z dt h), fromisoformat_isoformat dt h]
  rfl

/-! ### Claim C3 -/

/-- C3 counterexample: the claim says construction fails for every string
that is not valid ISO-8601, but `2024-01-15x10:30:00` — not ISO-8601, the
separator is `x` — is accepted and construction succeeds, because
`fromisoformat` ignores the character at index ten entirely. -/
theorem c3_nonIso_accepted_cex :
    GMailData.construct "18c2f4a5" none "a@b.c" "subj" "2024-01-15x10:30:00" ""
      = .ok ⟨"18c2f4a5", none, "a@b.c", "subj", "2024-01-15x10:30:00", ""⟩ ∧
    specISO8601 "2024-01-15x10:30:00".data = false := by
  constructor
  · decide
  · decide

/-- C3 amended: construction succeeds exactly for the language of Python's
`fromisoformat` applied after replacing every `Z` by `+00:00`.  That
language is not ISO-8601: ANY single character other than `Z` may
separate the date from the time, while some ISO-8601 forms (for example
fractional-hour times) are rejected; the common ISO-8601 forms
`YYYY-MM-DDTHH:MM:SS` with optional offset or trailing `Z` are accepted,
and unparseable strings are rejected. -/
theorem c3_fromisoformat_language :
    (∀ c : Char, c ≠ 'Z' →
      validate_date_format ("2024-01-15".data ++ c :: "10:30:00".data) = true) ∧
    validate_date_format "2024-01-15T10:30:00".data = true ∧
    validate_date_format "2024-01-15T10:30:00Z".data = true ∧
    validate_date_format "2024-01-15T10:30:00+05:30".data = true ∧
    validate_date_format "2024-01-15T10.5".data = false ∧
    validate_date_format "not-a-date".data = false := by
  refine ⟨?_, by decide, by decide, by decide, by decide, by decide⟩
  intro c hc
  have hA : replaceZ "2024-01-15".data = "2024-01-15".data := by decide
  have hB : replaceZ "10:30:00".data = "10:30:00".data := by decide
  have hrep : replaceZ ("2024-01-15".data ++ c :: "10:30:00".data)
      = "2024-01-15".data ++ c :: "10:30:00".data := by
    rw [replaceZ_append, hA]
    show _ ++ replaceZ (c :: _) = _
    rw [replaceZ, if_neg hc, hB]
  have hlen10 : ("2024-01-15".data).length = 10 := by decide
  have htake : ("2024-01-15".data ++ c :: "10:30:00".data).take 10
      = "2024-01-15".data := List.take_left' hlen10
  have hassoc : "2024-01-15".data ++ c :: "10:30:00".data
      = ("2024-01-15".data ++ [c]) ++ "10:30:00".data := by simp
  have hlen11 : ("2024-01-15".data ++ [c]).length = 11 := by
    simp [hlen10]
  have hdrop : ("2024-01-15".data ++ c :: "10:30:00".data).drop 11
      = "10:30:00".data := by
    rw [hassoc]; exact List.drop_left' hlen11
  have hlen19 : ("2024-01-15".data ++ c :: "10:30:00".data).length = 19 := by
    simp [hlen10]
  unfold validate_date_format
  rw [hrep, fromisoformat, htake]
  have hdate : parseIsoDate "2024-01-15".data = some (2024, 1, 15) := by decide
  rw [hdate]
  simp only [Option.bind_eq_bind, Option.some_bind]
  rw [if_neg (by rw [hlen19]; omega), hdrop]
  decide

/-- C3 witness: the amended theorem applied at the concrete separator `x`. -/
theorem c3_fromisoformat_language_witness :
    validate_date_format ("2024-01-15".data ++ 'x' :: "10:30:00".data) = true :=
  c3_fromisoformat_language.1 'x' (by decide)

/-! ### Claim C4 -/

/-- C4 counterexample: the claim says construction fails for every string
not matching exactly `YYYY-MM-DD HH:MM:SS`, but `2024-3-1 5:0:0` — with
unpadded single-digit fields, not of that shape — is accepted by the
`strptime` validator and construction succeeds. -/
theorem c4_unpadded_accepted_cex :
    validate_readable_date "2024-3-1 5:0:0".data = true ∧
    specFixedShape "2024-3-1 5:0:0".data = false ∧
    GMailDataExtended.construct "id1" none "a@b.c" "c@d.e" "subj"
      "2024-01-15T10:30:00" "2024-3-1 5:0:0" [] "" 0 none =
      .ok ⟨"id1", none, "a@b.c", "c@d.e", "subj", "2024-01-15T10:30:00",
        "2024-3-1 5:0:0", [], "", 0, none⟩ := by
  refine ⟨by decide, by decide, by decide⟩

/-- C4 amended: the readable-date field succeeds exactly for the language
of `strptime('%Y-%m-%d %H:%M:%S')`: four-digit year and the literal
separators, but month, day, hour, minute and second may each be one or
two digits, a run of whitespace may stand for the space, and calendar
validity is enforced — so `2024-3-1 5:0:0` is accepted although not of
the fixed shape, while `2024-02-30 10:30:00` is rejected although
shape-matching. -/
theorem c4_strptime_language :
    validate_readable_date "2024-01-15 10:30:00".data = true ∧
    validate_readable_date "2024-3-1 5:0:0".data = true ∧
    validate_readable_date "2024-01-15\t10:30:00".data = true ∧
    specFixedShape "2024-02-30 10:30:00".data = true ∧
    validate_readable_date "2024-02-30 10:30:00".data = false ∧
    validate_readable_date "2024-13-01 10:30:00".data = false ∧
    validate_readable_date "2024-01-15 24:00:00".data = false ∧
    validate_readable_date "not a date".data = false := by
  refine ⟨by decide, by decide, by decide, by decide, by decide, by decide,
    by decide, by decide⟩

/-! ### Claim C5 -/

/-- C5: `ensure_datetime` maps the five keywords to the current time minus
0, 1, 7, 30 and 365 days; any other string is tried against the five
formats in order with the first success winning — `2024-03-01` parses to
March 1 2024 midnight, `01/02/2024` to January 2 (the `%m/%d/%Y` format
precedes `%d/%m/%Y`), a full timestamp reaches the fourth format — and an
unparseable string raises.  The two closing conjuncts pin down the
day-subtraction arithmetic across a leap day and a year. -/
theorem c5_ensure_datetime :
    (∀ now : PyDateTime,
      ensure_datetime now "today" = .ok now ∧
      ensure_datetime now "yesterday" = .ok (subDays now 1) ∧
      ensure_datetime now "last_week" = .ok (subDays now 7) ∧
      ensure_datetime now "last_month" = .ok (subDays now 30) ∧
      ensure_datetime now "last_year" = .ok (subDays now 365) ∧
      ensure_datetime now "2024-03-01" = .ok ⟨2024, 3, 1, 0, 0, 0, none⟩ ∧
      ensure_datetime now "01/02/2024" = .ok ⟨2024, 1, 2, 0, 0, 0, none⟩ ∧
      ensure_datetime now "2024-03-01 10:30:00"
        = .ok ⟨2024, 3, 1, 10, 30, 0, none⟩ ∧
      ensure_datetime now "not-a-date" = .error "Unable to parse date") ∧
    subDays ⟨2024, 3, 1, 10, 30, 0, none⟩ 1 = ⟨2024, 2, 29, 10, 30, 0, none⟩ ∧
    subDays ⟨2024, 1, 1, 0, 0, 0, none⟩ 365 = ⟨2023, 1, 1, 0, 0, 0, none⟩ := by
  refine ⟨fun now => ⟨rfl, rfl, rfl, rfl, rfl, rfl, rfl, rfl, rfl⟩,
    by decide, by decide⟩

/-! ### Claim C1 -/

/-- C1 counterexample: the claim says that with a plain-text part and an
HTML part at the same nesting level the plain-text content is returned,
but with the HTML part listed first the search returns the HTML content:
the loop over sub-parts returns the FIRST non-empty body in list order,
with no preference between the two types (`SA==` decodes to `H`, `UA==`
to `P`). -/
theorem c1_html_first_wins_cex :
    extract_email_body (Part.mk (some "multipart/alternative") ""
      [Part.mk (some "text/html") "SA==" [],
       Part.mk (some "text/plain") "UA==" []]) = .ok ['H'] ∧
    decodeBody "UA==".data = .ok ['P'] ∧ (['H'] : List Char) ≠ ['P'] := by
  refine ⟨by decide, by decide, by decide⟩

/-- C1 amended: extraction returns the content of the first part in
depth-first order (sub-parts before the node itself) whose declared type
is `text/plain` or `text/html` and whose data decodes to a non-empty
body, REGARDLESS of which of the two types it is: a leaf of either type
at the head of a part list wins over everything after it.  The plain-over
-HTML preference of the claim holds only when the plain part comes first. -/
theorem c1_first_part_in_order_wins (data : String) (s : List Char)
    (rest : List Part) (hdec : decodeBody data.data = .ok s) (hne : s ≠ [])
    (hdata : data ≠ "") :
    get_body_from_parts (Part.mk (some "text/plain") data [] :: rest) = .ok s ∧
    get_body_from_parts (Part.mk (some "text/html") data [] :: rest) = .ok s := by
  have hplain : get_body_from_part (Part.mk (some "text/plain") data []) = .ok s := by
    rw [get_body_from_part]
    simp [get_body_from_parts, hdata, hdec, Except.bind]
  have hhtml : get_body_from_part (Part.mk (some "text/html") data []) = .ok s := by
    rw [get_body_from_part]
    simp [get_body_from_parts, hdata, hdec, Except.bind]
  constructor
  · rw [get_body_from_parts, hplain]
    show (if s ≠ [] then pure s else get_body_from_parts rest) = Except.ok s
    rw [if_pos hne]
    rfl
  · rw [get_body_from_parts, hhtml]
    show (if s ≠ [] then pure s else get_body_from_parts rest) = Except.ok s
    rw [if_pos hne]
    rfl

/-- C1 witness: the amended theorem at a concrete plain-first list, where
the plain part does win over the HTML part after it. -/
theorem c1_first_part_in_order_wins_witness :
    get_body_from_parts (Part.mk (some "text/plain") "UA==" [] ::
      [Part.mk (some "text/html") "SA==" []]) = .ok ['P'] :=
  (c1_first_part_in_order_wins "UA==" ['P']
    [Part.mk (some "text/html") "SA==" []] (by decide) (by decide)
    (by decide)).1

/-! ### Claim C2 -/

/-- C2 counterexample: the claim says base64url decoding never raises, but
on the part data `A` — one data character, one more than a multiple of
four — `urlsafe_b64decode` raises `binascii.Error` and the exception
propagates out of the body extraction. -/
theorem c2_decode_raises_cex :
    urlsafe_b64decode "A".data =
      .error "Invalid base64-encoded string: number of data characters cannot be 1 more than a multiple of 4" ∧
    extract_email_body (Part.mk (some "text/plain") "A" []) =
      .error "Invalid base64-encoded string: number of data characters cannot be 1 more than a multiple of 4" ∧
    urlsafe_b64decode "QQ".data = .error "Incorrect padding" := by
  refine ⟨by decide, by decide, by decide⟩

theorem b64val_ascii (c : Char) (h : (b64val c).isSome = true) :
    c.toNat < 128 := by
  unfold b64val at h
  split_ifs at h with h1 h2 h3 h4 h5
  · have : c.toNat ≤ 90 := h1.2
    omega
  · have : c.toNat ≤ 122 := h2.2
    omega
  · have : c.toNat ≤ 57 := h3.2
    omega
  · rcases h4 with rfl | rfl <;> decide
  · rcases h5 with rfl | rfl <;> decide
  · simp at h

theorem a2bLoop_step0 (c : Char) (rest : List Char) (v left pads : Nat)
    (acc : List Nat) (hv : b64val c = some v) (hc : ¬ c = '=') :
    a2bLoop (c :: rest) 0 left pads acc = a2bLoop rest 1 v 0 acc := by
  rw [a2bLoop, if_neg hc, hv]

theorem a2bLoop_step1 (c : Char) (rest : List Char) (v left pads : Nat)
    (acc : List Nat) (hv : b64val c = some v) (hc : ¬ c = '=') :
    a2bLoop (c :: rest) 1 left pads acc
      = a2bLoop rest 2 (v % 16) 0 ((left * 4 + v / 16) :: acc) := by
  rw [a2bLoop, if_neg hc, hv]

theorem a2bLoop_step2 (c : Char) (rest : List Char) (v left pads : Nat)
    (acc : List Nat) (hv : b64val c = some v) (hc : ¬ c = '=') :
    a2bLoop (c :: rest) 2 left pads acc
      = a2bLoop rest 3 (v % 4) 0 ((left * 16 + v / 4) :: acc) := by
  rw [a2bLoop, if_neg hc, hv]

theorem a2bLoop_step3 (c : Char) (rest : List Char) (v left pads : Nat)
    (acc : List Nat) (hv : b64val c = some v) (hc : ¬ c = '=') :
    a2bLoop (c :: rest) 3 left pads acc
      = a2bLoop rest 0 0 0 ((left * 64 + v) :: acc) := by
  rw [a2bLoop, if_neg hc, hv]

theorem a2bLoop_aligned (n : Nat) :
    ∀ l : List Char, l.length = 4 * n → (∀ c ∈ l, (b64val c).isSome = true) →
      ∀ acc, ∃ bs, a2bLoop l 0 0 0 acc = .ok bs := by
  induction n with
  | zero =>
    intro l hl _ acc
    have : l = [] := List.length_eq_zero.mp (by omega)
    subst this
    exact ⟨acc.reverse, rfl⟩
  | succ n ih =>
    intro l hl hmem acc
    match l, hl with
    | c1 :: c2 :: c3 :: c4 :: t, hl =>
      have hv1 := hmem c1 (by simp)
      have hv2 := hmem c2 (by simp)
      have hv3 := hmem c3 (by simp)
      have hv4 := hmem c4 (by simp)
      obtain ⟨v1, e1⟩ := Option.isSome_iff_exists.mp hv1
      obtain ⟨v2, e2⟩ := Option.isSome_iff_exists.mp hv2
      obtain ⟨v3, e3⟩ := Option.isSome_iff_exists.mp hv3
      obtain ⟨v4, e4⟩ := Option.isSome_iff_exists.mp hv4
      have hp : b64val '=' = none := by decide
      have n1 : ¬ c1 = '=' := fun he => by rw [he, hp] at e1; cases e1
      have n2 : ¬ c2 = '=' := fun he => by rw [he, hp] at e2; cases e2
      have n3 : ¬ c3 = '=' := fun he => by rw [he, hp] at e3; cases e3
      have n4 : ¬ c4 = '=' := fun he => by rw [he, hp] at e4; cases e4
      rw [a2bLoop_step0 c1 (c2 :: c3 :: c4 :: t) v1 0 0 acc e1 n1]
      rw [a2bLoop_step1 c2 (c3 :: c4 :: t) v2 v1 0 acc e2 n2]
      rw [a2bLoop_step2 c3 (c4 :: t) v3 (v2 % 16) 0 _ e3 n3]
      rw [a2bLoop_step3 c4 t v4 (v3 % 4) 0 _ e4 n4]
      exact ih t (by simp only [List.length_cons] at hl; omega)
        (fun c hc => hmem c (by simp [hc])) _

/-- C2 amended: base64url decoding is NOT total — it raises on malformed
input such as `A` — but on input built from base64url alphabet characters
in groups of four it succeeds, and the subsequent UTF-8 step never fails:
`errors='ignore'` silently drops (rather than replaces) invalid byte
sequences, as the second conjunct shows on the bytes `72, 255, 73`. -/
theorem c2_decode_amended :
    (∀ l : List Char, (∀ c ∈ l, (b64val c).isSome = true) →
      l.length % 4 = 0 →
      ∃ bs, urlsafe_b64decode l = .ok bs ∧
        decodeBody l = .ok (utf8DecodeIgnore bs)) ∧
    utf8DecodeIgnore [72, 255, 73] = ['H', 'I'] := by
  constructor
  · intro l hmem hlen
    have hascii : l.all (fun c => c.toNat < 128) = true := by
      rw [List.all_eq_true]
      intro c hc
      simpa using b64val_ascii c (hmem c hc)
    obtain ⟨bs, hbs⟩ := a2bLoop_aligned (l.length / 4) l (by omega) hmem []
    refine ⟨bs, ?_, ?_⟩
    · rw [urlsafe_b64decode, if_pos hascii]
      exact hbs
    · rw [decodeBody]
      rw [urlsafe_b64decode, if_pos hascii, hbs]
      rfl
  · decide

/-- C2 witness: the amended theorem at the concrete well-formed input
`SGVs`. -/
theorem c2_decode_amended_witness :
    ∃ bs, urlsafe_b64decode "SGVs".data = .ok bs ∧
      decodeBody "SGVs".data = .ok (utf8DecodeIgnore bs) :=
  c2_decode_amended.1 "SGVs".data (by decide) (by decide)

/-! ### Claim C6 -/

/-- C6: an optional trailing parenthesised timezone name is stripped from
the `Date` header before parsing (the concrete conjuncts show the
stripped string parsing, the unstripped one failing, and the stripping
itself); and whenever parsing of the (possibly missing) header fails,
the parsed date silently falls back to the supplied current time — the
record is still constructed and no error reaches the caller. -/
theorem c6_date_fallback :
    (∀ (now : PyDateTime) (d : MessageDetails) (msgId : String),
      validNaive now →
      strptime2822 (stripParen (((build_headers d.headers) "Date").getD "").data)
        = none →
      parse_email_data true false now msgId d =
        .ok (.basic ⟨msgId, d.threadId,
          ((build_headers d.headers) "From").getD "Unknown",
          ((build_headers d.headers) "Subject").getD "No Subject",
          String.mk (isoformat now), d.snippet⟩)) ∧
    stripParen "Mon, 15 Jan 2024 10:30:00 +0000 (PST)".data
      = "Mon, 15 Jan 2024 10:30:00 +0000".data ∧
    strptime2822 (stripParen "Mon, 15 Jan 2024 10:30:00 +0000 (PST)".data)
      = some ⟨2024, 1, 15, 10, 30, 0, some 0⟩ ∧
    strptime2822 "Mon, 15 Jan 2024 10:30:00 +0000 (PST)".data = none := by
  refine ⟨?_, by decide, by decide, by decide⟩
  intro now d msgId hval hfail
  have hvd : validate_date_format (String.mk (isoformat now)).data = true :=
    validate_isoformat now hval
  unfold parse_email_data
  simp only [hfail, GMailData.construct, hvd, Bool.false_eq_true, if_false,
    if_true, ite_true, ite_false, ne_eq]

/-- C6 witness: the fallback theorem at a concrete message with no `Date`
header. -/
theorem c6_date_fallback_witness :
    parse_email_data true false ⟨2024, 5, 1, 12, 0, 0, none⟩ "m1"
      ⟨none, [], "snip", [], 0, Part.mk none "" []⟩ =
      .ok (.basic ⟨"m1", none, "Unknown", "No Subject",
        String.mk (isoformat ⟨2024, 5, 1, 12, 0, 0, none⟩), "snip"⟩) :=
  c6_date_fallback.1 ⟨2024, 5, 1, 12, 0, 0, none⟩
    ⟨none, [], "snip", [], 0, Part.mk none "" []⟩ "m1" (by decide) (by decide)

/-! ### Claim C7 -/

theorem get_emails_fold {α β : Type} (parse : α → Except String β)
    (msgs : List α) : ∀ (acc : List β) (cnt : Nat),
    msgs.foldl
      (fun a m =>
        match parse m with
        | .ok e => (a.1 ++ [e], a.2)
        | .error _ => (a.1, a.2 + 1)) (acc, cnt)
      = (acc ++ msgs.filterMap (fun m => (parse m).toOption),
         cnt + (msgs.filter (fun m => !(parse m).isOk)).length) := by
  induction msgs with
  | nil => intro acc cnt; simp
  | cons m rest ih =>
    intro acc cnt
    cases hp : parse m with
    | ok e =>
      simp only [List.foldl_cons, hp, List.filterMap_cons, List.filter_cons,
        Except.toOption, Except.isOk, Except.toBool, ih, Bool.not_true,
        if_false, ite_false]
      simp
    | error err =>
      simp only [List.foldl_cons, hp, List.filterMap_cons, List.filter_cons,
        Except.toOption, Except.isOk, Except.toBool, ih, Bool.not_false,
        if_true, ite_true]
      simp
      omega

/-- C7: an empty match set returns the empty list (with error count zero)
rather than raising, and in general the call returns exactly the
successfully parsed subset, in order, while every per-message failure is
merely counted. -/
theorem c7_retrieval_errors_counted {α β : Type} (parse : α → Except String β)
    (msgs : List α) :
    get_emails_by_date_range parse ([] : List α) = ([], 0) ∧
    (get_emails_by_date_range parse msgs).1
      = msgs.filterMap (fun m => (parse m).toOption) ∧
    (get_emails_by_date_range parse msgs).2
      = (msgs.filter (fun m => !(parse m).isOk)).length := by
  refine ⟨rfl, ?_, ?_⟩ <;>
    · unfold get_emails_by_date_range
      cases msgs with
      | nil => simp
      | cons m rest =>
        simp only [List.isEmpty_cons, if_false, Bool.false_eq_true,
          get_emails_fold]
        simp

/-! ### Claim C9 -/

/-- C9: the header mapping is keyed by name with last-write-wins
semantics — looking a name up yields exactly the value of its last
occurrence in the header list (the first occurrence found when searching
the reversed list). -/
theorem c9_last_write_wins (hs : List (String × String)) (name : String) :
    build_headers hs name
      = ((hs.reverse.find? fun p => p.1 == name).map fun p => p.2) := by
  induction hs using List.reverseRecOn with
  | nil => rfl
  | append_singleton l p ih =>
    unfold build_headers
    rw [List.foldl_append]
    simp only [List.foldl_cons, List.foldl_nil, List.reverse_append,
      List.reverse_cons, List.reverse_nil, List.nil_append, List.cons_append,
      List.find?_cons]
    by_cases heq : name = p.1
    · subst heq
      simp
    · have : (p.1 == name) = false := by
        simp only [beq_eq_false_iff_ne, ne_eq]
        exact fun h => heq h.symm
      simp only [this, if_neg heq]
      exact ih

/-! ### Claim C10 -/

/-- C10: in basic mode with body inclusion requested the body is
extracted and then silently dropped — whenever the call returns a record
it is EXACTLY the record the same call without body inclusion returns,
and that record is the six-field basic shape with no body field. -/
theorem c10_basic_mode_drops_body (now : PyDateTime) (msgId : String)
    (d : MessageDetails) (r : ParsedEmail)
    (h : parse_email_data true true now msgId d = .ok r) :
    parse_email_data true false now msgId d = .ok r ∧
    ∃ g : GMailData, r = .basic g := by
  unfold parse_email_data at h ⊢
  simp only [Bool.false_eq_true, if_false, if_true, ite_true, ite_false] at h ⊢
  cases hb : extract_email_body d.payload with
  | error e =>
    simp only [hb] at h
    cases h
  | ok body =>
    simp only [hb] at h
    refine ⟨h, ?_⟩
    split at h
    · rename_i r' hr'
      exact ⟨r', (Except.ok.injEq _ _ ▸ h).symm⟩
    · cases h

/-- C10 witness: the theorem at a concrete message whose payload is a
plain-text part, with a concrete current time. -/
theorem c10_basic_mode_drops_body_witness :
    parse_email_data true false ⟨2024, 5, 1, 12, 0, 0, none⟩ "m1"
      ⟨none, [], "snip", [], 0, Part.mk (some "text/plain") "UA==" []⟩ =
      .ok (.basic ⟨"m1", none, "Unknown", "No Subject",
        "2024-05-01T12:00:00", "snip"⟩) ∧
    ∃ g : GMailData,
      (ParsedEmail.basic ⟨"m1", none, "Unknown", "No Subject",
        "2024-05-01T12:00:00", "snip"⟩) = .basic g :=
  c10_basic_mode_drops_body ⟨2024, 5, 1, 12, 0, 0, none⟩ "m1"
    ⟨none, [], "snip", [], 0, Part.mk (some "text/plain") "UA==" []⟩
    (.basic ⟨"m1", none, "Unknown", "No Subject", "2024-05-01T12:00:00", "snip"⟩)
    (by decide)

/-! ### Claim C8 -/

theorem head?_dropWhile_not (p : Char → Bool) (l : List Char) (c : Char)
    (h : (l.dropWhile p).head? = some c) : p c = false := by
  induction l with
  | nil => simp [List.dropWhile] at h
  | cons a t ih =>
    rw [List.dropWhile] at h
    cases hp : p a
    · rw [hp] at h
      simp only [List.head?_cons, Option.some.injEq] at h
      subst h
      exact hp
    · rw [hp] at h
      exact ih h

theorem collapseSpacesAux_head (fuel : Nat) (l : List Char) :
    (collapseSpacesAux fuel l).head? = l.head? := by
  match fuel, l with
  | 0, l => rfl
  | fuel + 1, [] => rfl
  | fuel + 1, c :: rest =>
    rw [collapseSpacesAux]
    by_cases hc : c = ' '
    · rw [if_pos hc, hc]
      rfl
    · rw [if_neg hc]
      rfl

theorem hasDoubleSpace_cons_space (X : List Char) (hX : X.head? ≠ some ' ') :
    hasDoubleSpace (' ' :: X) = hasDoubleSpace X := by
  cases X with
  | nil => rfl
  | cons b t =>
    have hb : ¬ b = ' ' := by
      intro hb
      exact hX (by rw [hb]; rfl)
    simp [hasDoubleSpace, hb]

theorem hasDoubleSpace_cons_nonspace (c : Char) (X : List Char)
    (hc : ¬ c = ' ') : hasDoubleSpace (c :: X) = hasDoubleSpace X := by
  cases X with
  | nil => rfl
  | cons b t => simp [hasDoubleSpace, hc]

theorem collapseSpacesAux_nds (fuel : Nat) :
    ∀ l : List Char, l.length ≤ fuel →
      hasDoubleSpace (collapseSpacesAux fuel l) = false := by
  induction fuel with
  | zero =>
    intro l hl
    have : l = [] := List.length_eq_zero.mp (by omega)
    subst this
    rfl
  | succ fuel ih =>
    intro l hl
    match l with
    | [] => rfl
    | c :: rest =>
      rw [collapseSpacesAux]
      by_cases hc : c = ' '
      · rw [if_pos hc]
        have hlen : (rest.dropWhile (· = ' ')).length ≤ fuel := by
          have hsub : (rest.dropWhile (· = ' ')).length ≤ rest.length :=
            List.Sublist.length_le (List.dropWhile_sublist _)
          simp only [List.length_cons] at hl
          omega
        rw [hasDoubleSpace_cons_space]
        · exact ih _ hlen
        · rw [collapseSpacesAux_head]
          intro hh
          have := head?_dropWhile_not (· = ' ') rest ' ' hh
          simp at this
      · rw [if_neg hc, hasDoubleSpace_cons_nonspace c _ hc]
        exact ih rest (by simp only [List.length_cons] at hl; omega)

theorem hds_cons_of (a : Char) (Y : List Char) (h : hasDoubleSpace Y = true) :
    hasDoubleSpace (a :: Y) = true := by
  cases Y with
  | nil => simp [hasDoubleSpace] at h
  | cons b t =>
    rw [hasDoubleSpace]
    simp [h]

theorem hds_append_right (l t : List Char) (h : hasDoubleSpace l = true) :
    hasDoubleSpace (l ++ t) = true := by
  induction l with
  | nil => simp [hasDoubleSpace] at h
  | cons a l ih =>
    cases l with
    | nil => simp [hasDoubleSpace] at h
    | cons b rest =>
      rw [hasDoubleSpace] at h
      simp only [List.cons_append]
      rw [hasDoubleSpace]
      simp only [Bool.or_eq_true] at h ⊢
      rcases h with h | h
      · exact Or.inl h
      · refine Or.inr ?_
        have := ih h
        simpa using this

theorem hds_append_left (s X : List Char) (h : hasDoubleSpace X = true) :
    hasDoubleSpace (s ++ X) = true := by
  induction s with
  | nil => exact h
  | cons a s ih =>
    simp only [List.cons_append]
    exact hds_cons_of a _ ih

theorem hds_infix_false (s m t : List Char)
    (h : hasDoubleSpace (s ++ m ++ t) = false) : hasDoubleSpace m = false := by
  by_contra hm
  have hm' : hasDoubleSpace m = true := by simpa using hm
  have htrue : hasDoubleSpace (s ++ m ++ t) = true := by
    rw [List.append_assoc]
    exact hds_append_left s _ (hds_append_right m t hm')
  rw [htrue] at h
  exact Bool.noConfusion h

theorem dropWhile_eq_pyStrip_append (l : List Char) :
    l.dropWhile (fun c => isPySpace c)
      = pyStrip l ++
        ((l.dropWhile fun c => isPySpace c).reverse.takeWhile
          fun c => isPySpace c).reverse := by
  conv_lhs => rw [← List.reverse_reverse (l.dropWhile fun c => isPySpace c),
    ← List.takeWhile_append_dropWhile (fun c => isPySpace c)
      (l.dropWhile fun c => isPySpace c).reverse]
  rw [List.reverse_append]
  rfl

theorem pyStrip_head (l : List Char) (c : Char)
    (h : (pyStrip l).head? = some c) : isPySpace c = false := by
  have hd := dropWhile_eq_pyStrip_append l
  have hh : (l.dropWhile fun c => isPySpace c).head? = some c := by
    rw [hd]
    cases hR : pyStrip l with
    | nil => rw [hR] at h; cases h
    | cons a tl =>
      rw [hR] at h
      simp only [List.head?_cons, Option.some.injEq] at h
      subst h
      rfl
  exact head?_dropWhile_not _ l c hh

theorem pyStrip_getLast (l : List Char) (c : Char)
    (h : (pyStrip l).getLast? = some c) : isPySpace c = false := by
  unfold pyStrip at h
  rw [List.getLast?_reverse] at h
  exact head?_dropWhile_not _ _ c h

/-- C8: HTML cleanup on the specification's example and two further
inputs (tag stripping with trimming and space collapsing; blank-line
collapsing across a whitespace-only line), together with the general
guarantees: the result of `_clean_html` never contains two adjacent
spaces, and never starts or ends with whitespace. -/
theorem c8_clean_html :
    clean_html "<p>Hello</p>\n\n\n<b>World</b>".data = "Hello\n\nWorld".data ∧
    clean_html "  <div> a    b </div>  ".data = "a b".data ∧
    clean_html "A\n   \nB".data = "A\n\nB".data ∧
    (∀ l : List Char, hasDoubleSpace (clean_html l) = false) ∧
    (∀ l : List Char,
      (clean_html l).head?.all (fun c => !isPySpace c) = true) ∧
    (∀ l : List Char,
      (clean_html l).getLast?.all (fun c => !isPySpace c) = true) := by
  refine ⟨by decide, by decide, by decide, ?_, ?_, ?_⟩
  · intro l
    unfold clean_html
    split
    · rfl
    · have hMf : hasDoubleSpace (collapseSpaces (collapseBlank (stripTags l)))
          = false := by
        unfold collapseSpaces
        exact collapseSpacesAux_nds _ _ (le_refl _)
      refine hds_infix_false
        ((collapseSpaces (collapseBlank (stripTags l))).takeWhile
          fun c => isPySpace c) _
        (((collapseSpaces (collapseBlank (stripTags l))).dropWhile
            (fun c => isPySpace c)).reverse.takeWhile
          fun c => isPySpace c).reverse ?_
      rw [List.append_assoc, ← dropWhile_eq_pyStrip_append,
        List.takeWhile_append_dropWhile]
      exact hMf
  · intro l
    unfold clean_html
    split
    · rfl
    · cases hh : (pyStrip (collapseSpaces (collapseBlank (stripTags l)))).head? with
      | none => rfl
      | some c =>
        have := pyStrip_head _ c hh
        simp [Option.all_some, this]
  · intro l
    unfold clean_html
    split
    · rfl
    · cases hh : (pyStrip (collapseSpaces (collapseBlank (stripTags l)))).getLast? with
      | none => rfl
      | some c =>
        have := pyStrip_getLast _ c hh
        simp [Option.all_some, this]
